import Mathlib

/-!
Verification of the `storage` package (BadgerDB-backed task-result cache)

Shallow embedding of `storage/badger.go`, `storage/storage.go` and the part of
`logger/logger.go` that the storage code calls.

Conventions of the embedding

* The handle `*Badger` is a value of the structure `Badger`; every method takes
  the handle and returns an `Outcome`: the Go return value, the handle after the
  call and the list of externally visible effects of the call, in program order.
* Each method body runs under the handle's `sync.RWMutex`, so a method call is one
  atomic transition of the handle.  The only code that touches the handle outside
  the lock is the reclamation worker; it has its own small-step model (`Sys`).
* What the program obtains from outside the repository is an explicit argument
  of the call: the wall clock (`now`, in nanoseconds), the answer of the engine
  (`fault`, `openResult`), the fresh context of `context.WithCancel` (`ctx`) and
  the JSON decoder (`unmarshal`).
-/

namespace storage

set_option exponentiation.threshold 2048

/-! ## Go values -/

/-- Go `error` values that the package creates or inspects. -/
inductive GoError where
  /-- The result of `errors.New` and of `fmt.Errorf`. -/
  | errorsNew (msg : String)
  /-- The sentinel `badger.ErrKeyNotFound`. -/
  | ErrKeyNotFound
  /-- Any other failure returned by the engine. -/
  | engine (msg : String)
  /-- A failure returned by `json.Unmarshal`. -/
  | json (msg : String)
  deriving DecidableEq, Repr

/-- The method `Error()` of a Go error. -/
def GoError.Error : GoError → String
  | .errorsNew m => m
  | .ErrKeyNotFound => "Key not found"
  | .engine m => m
  | .json m => m

/-- The test `errors.Is(err, badger.ErrKeyNotFound)`. -/
def GoError.isKeyNotFound : GoError → Bool
  | .ErrKeyNotFound => true
  | _ => false

/-- A Go `[]byte`. -/
abbrev Bytes := List UInt8

/-- A Go `interface{}` holding what `json.Unmarshal` stores into it.  Numbers and
strings are carried as the text of their JSON token. -/
inductive Any where
  | nil
  | bool (b : Bool)
  | number (lit : Bytes)
  | string (raw : Bytes)
  | array (items : List Any)
  | object (fields : List (Bytes × Any))

/-- The constant `time.Second` of Go: a `time.Duration` counts nanoseconds. -/
def Second : Nat := 1000000000

/-! ## A JSON decoder

`json.Unmarshal` belongs to the Go standard library.  The methods below take the
decoder as an argument, so every general theorem holds for whatever
`json.Unmarshal` does.  Where a theorem evaluates the program on a concrete
payload it uses the definitions of this section: `parseDocument` reads the JSON
grammar of RFC 8259, `jsonValid` tells whether a payload is a document of that
grammar, and `jsonUnmarshal` adds the two further checks of the library, the
nesting limit of its scanner and the range of `float64` for numbers. -/

/-- The JSON white space: space, tab, carriage return, line feed. -/
def isSpace (c : UInt8) : Bool :=
  c == 0x20 || c == 0x09 || c == 0x0d || c == 0x0a

/-- Drops the white space in front. -/
def skipSpace : Bytes → Bytes
  | [] => []
  | c :: cs => if isSpace c then skipSpace cs else c :: cs

/-- A decimal digit. -/
def isDigit (c : UInt8) : Bool := decide (0x30 ≤ c) && decide (c ≤ 0x39)

/-- A hexadecimal digit. -/
def isHex (c : UInt8) : Bool :=
  isDigit c || (decide (0x61 ≤ c) && decide (c ≤ 0x66)) || (decide (0x41 ≤ c) && decide (c ≤ 0x46))

/-- A non-empty run of digits in front: the run and what follows it. -/
def scanDigits (s : Bytes) : Option (Bytes × Bytes) :=
  match s.span isDigit with
  | ([], _) => none
  | (ds, rest) => some (ds, rest)

/-- A JSON number in front: its text and what follows it. -/
def scanNumber (s : Bytes) : Option (Bytes × Bytes) :=
  let signed : Bytes × Bytes :=
    match s with
    | c :: r => if c == 0x2d then ([c], r) else ([], s)
    | [] => ([], s)
  let intPart : Option (Bytes × Bytes) :=
    match signed.2 with
    | c :: r => if c == 0x30 then some ([c], r) else scanDigits (c :: r)
    | [] => none
  match intPart with
  | none => none
  | some (int, r1) =>
    let frac : Option (Bytes × Bytes) :=
      match r1 with
      | c :: r =>
        if c == 0x2e then (scanDigits r).map (fun p => (c :: p.1, p.2)) else some ([], r1)
      | [] => some ([], r1)
    match frac with
    | none => none
    | some (fr, r2) =>
      let exp : Option (Bytes × Bytes) :=
        match r2 with
        | c :: r =>
          if c == 0x65 || c == 0x45 then
            match r with
            | sg :: r3 =>
              if sg == 0x2b || sg == 0x2d then
                (scanDigits r3).map (fun p => (c :: sg :: p.1, p.2))
              else (scanDigits r).map (fun p => (c :: p.1, p.2))
            | [] => none
          else some ([], r2)
        | [] => some ([], r2)
      match exp with
      | none => none
      | some (ex, r4) => some (signed.1 ++ int ++ fr ++ ex, r4)

/-- The rest of a JSON string after its opening quote: the text up to the closing
quote and what follows that quote. -/
def scanString : Nat → Bytes → Option (Bytes × Bytes)
  | 0, _ => none
  | _ + 1, [] => none
  | fuel + 1, c :: cs =>
    if c == 0x22 then some ([], cs)
    else if c == 0x5c then
      match cs with
      | [] => none
      | e :: r =>
        if e == 0x22 || e == 0x5c || e == 0x2f || e == 0x62 || e == 0x66 || e == 0x6e ||
            e == 0x72 || e == 0x74 then
          (scanString fuel r).map (fun p => (c :: e :: p.1, p.2))
        else if e == 0x75 then
          match r with
          | h1 :: h2 :: h3 :: h4 :: r1 =>
            if isHex h1 && isHex h2 && isHex h3 && isHex h4 then
              (scanString fuel r1).map (fun p => (c :: e :: h1 :: h2 :: h3 :: h4 :: p.1, p.2))
            else none
          | _ => none
        else none
    else if c < 0x20 then none
    else (scanString fuel cs).map (fun p => (c :: p.1, p.2))

/-- The error of the decoder at the end of the input. -/
def errUnexpectedEnd : GoError := .json "unexpected end of JSON input"

/-- The error of the decoder at a byte that cannot continue the document (the
message of the library also names the byte and the position). -/
def errInvalidCharacter : GoError := .json "invalid character"

/-- The error of the parser when its recursion budget is used up (the budget given
by `parseDocument` is enough for every input). -/
def errBudget : GoError := .json "recursion budget exhausted"

/-- The error of the scanner of the library for a document nested deeper than
10000 levels. -/
def errMaxDepth : GoError := .json "exceeded max depth"

/-- The error `*json.UnmarshalTypeError` for a number that `strconv.ParseFloat`
does not convert to a `float64`. -/
def errNumberRange (lit : Bytes) : GoError :=
  .json ("json: cannot unmarshal number " ++ String.mk (lit.map (fun c => Char.ofNat c.toNat)) ++
    " into Go value of type float64")

mutual
/-- A JSON value in front of the input: the value and what follows it. -/
def parseValue : Nat → Bytes → Except GoError (Any × Bytes)
  | 0, _ => .error errBudget
  | _ + 1, [] => .error errUnexpectedEnd
  | fuel + 1, c :: r =>
    if c == 0x7b then
      match skipSpace r with
      | [] => .error errUnexpectedEnd
      | c2 :: r2 =>
        if c2 == 0x7d then .ok (.object [], r2) else parseMembers fuel (c2 :: r2) []
    else if c == 0x5b then
      match skipSpace r with
      | [] => .error errUnexpectedEnd
      | c2 :: r2 =>
        if c2 == 0x5d then .ok (.array [], r2) else parseElements fuel (c2 :: r2) []
    else if c == 0x22 then
      match scanString (r.length + 1) r with
      | some (raw, rest) => .ok (.string raw, rest)
      | none => .error errInvalidCharacter
    else if c == 0x2d || isDigit c then
      match scanNumber (c :: r) with
      | some (lit, rest) => .ok (.number lit, rest)
      | none => .error errInvalidCharacter
    else if [0x74, 0x72, 0x75, 0x65].isPrefixOf (c :: r) then .ok (.bool true, r.drop 3)
    else if [0x66, 0x61, 0x6c, 0x73, 0x65].isPrefixOf (c :: r) then .ok (.bool false, r.drop 4)
    else if [0x6e, 0x75, 0x6c, 0x6c].isPrefixOf (c :: r) then .ok (.nil, r.drop 3)
    else .error errInvalidCharacter
/-- The elements of an array after `[` or `,`, up to and with the closing `]`;
`acc` holds the elements read so far, newest first. -/
def parseElements : Nat → Bytes → List Any → Except GoError (Any × Bytes)
  | 0, _, _ => .error errBudget
  | fuel + 1, s, acc =>
    match parseValue fuel s with
    | .error e => .error e
    | .ok (v, rest) =>
      match skipSpace rest with
      | [] => .error errUnexpectedEnd
      | c :: r =>
        if c == 0x5d then .ok (.array (v :: acc).reverse, r)
        else if c == 0x2c then parseElements fuel (skipSpace r) (v :: acc)
        else .error errInvalidCharacter
/-- The members of an object after `{` or `,`, up to and with the closing `}`;
`acc` holds the members read so far, newest first. -/
def parseMembers : Nat → Bytes → List (Bytes × Any) → Except GoError (Any × Bytes)
  | 0, _, _ => .error errBudget
  | _ + 1, [], _ => .error errUnexpectedEnd
  | fuel + 1, q :: s, acc =>
    if q == 0x22 then
      match scanString (s.length + 1) s with
      | none => .error errInvalidCharacter
      | some (key, rest) =>
        match skipSpace rest with
        | [] => .error errUnexpectedEnd
        | colon :: r =>
          if colon == 0x3a then
            match parseValue fuel (skipSpace r) with
            | .error e => .error e
            | .ok (v, rest1) =>
              match skipSpace rest1 with
              | [] => .error errUnexpectedEnd
              | c :: r1 =>
                if c == 0x7d then .ok (.object ((key, v) :: acc).reverse, r1)
                else if c == 0x2c then parseMembers fuel (skipSpace r1) ((key, v) :: acc)
                else .error errInvalidCharacter
          else .error errInvalidCharacter
    else .error errInvalidCharacter
end

/-- The grammar of RFC 8259: one JSON value between optional white space.  The
recursion budget is enough for every input, since two nested calls consume at
least one byte. -/
def parseDocument (data : Bytes) : Except GoError Any :=
  match parseValue (2 * data.length + 2) (skipSpace data) with
  | .error e => .error e
  | .ok (v, rest) =>
    match skipSpace rest with
    | [] => .ok v
    | _ :: _ => .error errInvalidCharacter

/-- Tells whether a payload is a valid JSON document (RFC 8259). -/
def jsonValid (data : Bytes) : Bool :=
  match parseDocument data with
  | .ok _ => true
  | .error _ => false

/-- The constant `maxNestingDepth` of the scanner of `encoding/json`. -/
def maxNestingDepth : Nat := 10000

mutual
/-- The number of nested arrays and objects of a value. -/
def Any.depth : Any → Nat
  | .array items => 1 + depthItems items
  | .object fields => 1 + depthFields fields
  | _ => 0
/-- The deepest of the elements of an array. -/
def depthItems : List Any → Nat
  | [] => 0
  | v :: vs => max v.depth (depthItems vs)
/-- The deepest of the member values of an object. -/
def depthFields : List (Bytes × Any) → Nat
  | [] => 0
  | (_, v) :: fs => max v.depth (depthFields fs)
end

/-- The number written by a run of decimal digits. -/
def digitsValue (ds : Bytes) : Nat :=
  ds.foldl (fun acc c => acc * 10 + (c.toNat - 0x30)) 0

/-- The least magnitude that rounds to infinity as a `float64`: the largest
finite `float64` plus half a unit in its last place. -/
def float64Overflow : Nat := 2 ^ 1024 - 2 ^ 970

/-- Tells whether `strconv.ParseFloat(lit, 64)` succeeds on the text of a JSON
number: it fails exactly when the number rounds to infinity (a number that rounds
to zero is accepted).  The magnitude `m * 10 ^ (e - f)`, with `m` the digits of
the integer and fraction parts, `f` the count of fraction digits and `e` the
exponent, is compared exactly. -/
def float64InRange (lit : Bytes) : Bool :=
  let unsigned : Bytes :=
    match lit with
    | c :: r => if c == 0x2d then r else lit
    | [] => lit
  let int := unsigned.span isDigit
  let frac : Bytes × Bytes :=
    match int.2 with
    | c :: r => if c == 0x2e then r.span isDigit else ([], int.2)
    | [] => ([], int.2)
  let exp : Bool × Nat :=
    match frac.2 with
    | c :: r =>
      if c == 0x65 || c == 0x45 then
        match r with
        | sg :: r1 =>
          if sg == 0x2d then (true, digitsValue r1)
          else if sg == 0x2b then (false, digitsValue r1)
          else (false, digitsValue r)
        | [] => (false, 0)
      else (false, 0)
    | [] => (false, 0)
  let m := digitsValue (int.1 ++ frac.1)
  let f := frac.1.length
  if exp.1 then decide (m < float64Overflow * 10 ^ (exp.2 + f))
  else if f ≤ exp.2 then decide (m * 10 ^ (exp.2 - f) < float64Overflow)
  else decide (m < float64Overflow * 10 ^ (f - exp.2))

mutual
/-- The first number of a value, in document order, that does not fit a
`float64`. -/
def Any.badNumber : Any → Option Bytes
  | .number lit => if float64InRange lit then none else some lit
  | .array items => badNumberItems items
  | .object fields => badNumberFields fields
  | _ => none
/-- The first such number among the elements of an array. -/
def badNumberItems : List Any → Option Bytes
  | [] => none
  | v :: vs =>
    match v.badNumber with
    | some lit => some lit
    | none => badNumberItems vs
/-- The first such number among the member values of an object. -/
def badNumberFields : List (Bytes × Any) → Option Bytes
  | [] => none
  | (_, v) :: fs =>
    match v.badNumber with
    | some lit => some lit
    | none => badNumberFields fs
end

/-- A decoder for `json.Unmarshal(data, &v)` with `v` of type `interface{}`.  The
library first scans the whole input (grammar and nesting limit) and then
decodes it, converting every number with `strconv.ParseFloat`; a number out of
range is reported once the decoding is over. -/
def jsonUnmarshal (data : Bytes) : Except GoError Any :=
  match parseDocument data with
  | .error e => .error e
  | .ok v =>
    if v.depth > maxNestingDepth then .error errMaxDepth
    else
      match v.badNumber with
      | some lit => .error (errNumberRange lit)
      | none => .ok v

/-! ## `storage/storage.go` -/

/-- The struct `TaskResult`. -/
structure TaskResult where
  Status : String
  Data : Any

/-! ## The embedded key-value engine

The engine (`github.com/dgraph-io/badger/v3`) is a dependency; its code is not part
of the repository.  The definitions of this section describe the part of its
interface that `badger.go` calls. -/

/-- The fields of `badger.Options` that `Open` sets. -/
structure Options where
  Dir : String
  ValueLogFileSize : Nat
  MemTableSize : Nat
  NumMemtables : Nat
  NumLevelZeroTables : Nat
  NumLevelZeroTablesStall : Nat
  CompactL0OnClose : Bool
  ValueThreshold : Nat
  deriving DecidableEq, Repr

/-- The call `badger.DefaultOptions(path)`, on the fields above (the defaults of
release v3 of the engine). -/
def DefaultOptions (path : String) : Options :=
  { Dir := path
    ValueLogFileSize := (1 <<< 30) - 1
    MemTableSize := 64 <<< 20
    NumMemtables := 5
    NumLevelZeroTables := 5
    NumLevelZeroTablesStall := 15
    CompactL0OnClose := false
    ValueThreshold := 1 <<< 20 }

/-- An engine entry: key, value and absolute expiry instant (`0`: never expires). -/
structure Entry where
  Key : String
  Value : Bytes
  ExpiresAt : Nat
  deriving DecidableEq, Repr

/-- The call `badger.NewEntry(key, value)`. -/
def NewEntry (key : String) (value : Bytes) : Entry :=
  { Key := key, Value := value, ExpiresAt := 0 }

/-- Modelled from the spec: the method `WithTTL` of an engine entry, called at
instant `now`.  The entry carries an expiry attribute of `dur` from write time. -/
def Entry.WithTTL (e : Entry) (dur : Nat) (now : Nat) : Entry :=
  { e with ExpiresAt := now + dur }

/-- Modelled from the spec: an entry with a time-to-live is treated as absent once
that duration has passed. -/
def Entry.expired (e : Entry) (now : Nat) : Bool :=
  e.ExpiresAt != 0 && decide (e.ExpiresAt ≤ now)

/-- Modelled from the spec: the state of a live engine instance `*badger.DB`, an
ordered key-value store with last-write-wins records.  The newest write is first. -/
structure DB where
  entries : List Entry
  deriving DecidableEq, Repr

/-- An engine instance without records. -/
def DB.empty : DB := { entries := [] }

/-- A transaction of the engine: the store it reads and the writes it has buffered. -/
structure Txn where
  db : DB
  writes : List Entry

/-- The method `txn.SetEntry`. -/
def Txn.SetEntry (txn : Txn) (e : Entry) : Except GoError Txn :=
  .ok { txn with writes := e :: txn.writes }

/-- Modelled from the spec: the method `db.Update(fn)`, a single atomic write.
`fault` is the answer of the engine when it refuses the transaction, for whatever
reason (rejected key, conflict, input or output failure); the store is then
unchanged.  Returns the store after the call. -/
def DB.Update (db : DB) (fault : Option String) (fn : Txn → Except GoError Txn) :
    Except GoError DB :=
  match fault with
  | some m => .error (.engine m)
  | none =>
    match fn { db := db, writes := [] } with
    | .error e => .error e
    | .ok txn => .ok { entries := txn.writes ++ db.entries }

/-- A record handed out by `txn.Get`. -/
structure Item where
  entry : Entry

/-- Modelled from the spec: the method `txn.Get(key)` at instant `now`: the newest
record under `key`, and `ErrKeyNotFound` when there is none or it has expired. -/
def Txn.Get (txn : Txn) (key : String) (now : Nat) : Except GoError Item :=
  match txn.db.entries.find? (fun e => e.Key == key) with
  | none => .error .ErrKeyNotFound
  | some e => if e.expired now then .error .ErrKeyNotFound else .ok { entry := e }

/-- The method `item.Value(fn)`. -/
def Item.Value {α : Type} (item : Item) (fn : Bytes → Except GoError α) : Except GoError α :=
  fn item.entry.Value

/-- Modelled from the spec: the method `db.View(fn)`; `fault` is the answer of
the engine when the lookup itself fails. -/
def DB.View {α : Type} (db : DB) (fault : Option String) (fn : Txn → Except GoError α) :
    Except GoError α :=
  match fault with
  | some m => .error (.engine m)
  | none => fn { db := db, writes := [] }

/-- The method `db.Close()`; `fault` is the answer of the engine when it does not
close cleanly. -/
def DB.Close (_db : DB) (fault : Option String) : Option GoError :=
  fault.map GoError.engine

/-- The answers of `db.RunValueLogGC` that the worker tells apart: success, the two
benign sentinels, and any other failure. -/
inductive GCResult where
  | done
  | ErrNoRewrite
  | ErrRejected
  | failed (msg : String)
  deriving DecidableEq, Repr

/-! ## Effects -/

/-- A `*sentry.Hub`. -/
structure Hub where
  module : String
  deriving DecidableEq, Repr

/-- Externally visible actions of the package. -/
inductive Effect where
  /-- The call `badger.Open(opts)`. -/
  | engineOpen (opts : Options)
  /-- The call `db.Update` writing one entry with a time-to-live. -/
  | engineUpdate (key : String) (value : Bytes) (ttl : Nat)
  /-- The call `db.View` reading one key. -/
  | engineView (key : String)
  /-- The call `db.Close()`. -/
  | engineClose
  /-- The call `b.db.RunValueLogGC(0.7)`; `live` tells whether `b.db` still held an engine. -/
  | engineGC (live : Bool)
  /-- The call of the `context.CancelFunc` of context `ctx`. -/
  | cancel (ctx : Nat)
  /-- The statement `go b.valueLogGCWorker(ctx)`. -/
  | goWorker (ctx : Nat)
  /-- The statement `go func(id, data)` of `Insert`. -/
  | goAfterInsert (id : String) (data : Bytes)
  /-- The error line written by `logger.LogError`. -/
  | logError (fields : List (String × String))
  /-- The call `hub.CaptureException(err)` with the extra `context`. -/
  | sentryCapture (hub : Hub) (context : String) (err : GoError)
  /-- The call `log.Info`. -/
  | logInfo (msg : String)
  /-- The call `log.Warnf`. -/
  | logWarn (msg : String)
  /-- The call `log.Errorf`. -/
  | logErrorf (msg : String)
  deriving DecidableEq, Repr

/-! ## `logger/logger.go` -/

/-- The function `logger.LogError` (the caller position added from the runtime is
left out). -/
def LogError (err : Option GoError) (functionName : String)
    (additionalFields : List (String × String)) : List Effect :=
  match err with
  | none => []
  | some e => [.logError (("error", e.Error) :: ("function", functionName) :: additionalFields)]

/-- The function `logger.LogAndCapture`. -/
def LogAndCapture (hub : Option Hub) (err : GoError) (context : String)
    (additionalFields : List (String × String)) : List Effect :=
  LogError (some err) context additionalFields ++
    (match hub with
     | some h => [.sentryCapture h context err]
     | none => [])

/-! ## `storage/badger.go` -/

/-- What a call of the `AfterInsert` callback does to its goroutine: it returns,
or it panics with a value. -/
inductive CallbackResult where
  | returned
  | panicked (v : String)
  deriving DecidableEq, Repr

/-- The type `func(taskID string, data []byte)`. -/
abbrev Callback := String → Bytes → CallbackResult

/-- The struct `Badger` (the mutex is represented by the atomicity of the methods). -/
structure Badger where
  db : Option DB
  Path : String
  SentryBadger : Option Hub
  AfterInsert : Option Callback
  closed : Bool
  cancelGC : Option Nat

/-- Return value, handle after the call, and effects of a method call. -/
structure Outcome (α : Type) where
  ret : α
  state : Badger
  effects : List Effect

/-- The options assembled in `Open`. -/
def openOptions (path : String) : Options :=
  { DefaultOptions path with
    ValueLogFileSize := 16 <<< 20
    MemTableSize := 4 <<< 20
    NumMemtables := 2
    NumLevelZeroTables := 2
    NumLevelZeroTablesStall := 3
    CompactL0OnClose := true
    ValueThreshold := 64 <<< 10 }

/-- The method `Badger.Open`.  `openResult` is the answer of `badger.Open(opts)`,
`ctx` the context made by `context.WithCancel`.  Returns the Go `error`
(`none` is `nil`). -/
def Badger.Open (b : Badger) (openResult : Except GoError DB) (ctx : Nat) :
    Outcome (Option GoError) :=
  match b.db with
  | some _ => { ret := none, state := b, effects := [] }
  | none =>
    let opts := openOptions b.Path
    match openResult with
    | .error err =>
      { ret := some err
        state := { b with db := none }
        effects := .engineOpen opts ::
          LogAndCapture b.SentryBadger err "Failed to open badger database" [("path", b.Path)] }
    | .ok db =>
      { ret := none
        state := { b with db := some db, cancelGC := some ctx }
        effects := [.engineOpen opts, .goWorker ctx,
          .logInfo "BadgerDB opened with optimized settings"] }

/-- The method `Badger.Insert`, called at instant `now`; `fault` is the answer of
the engine when it refuses the write. -/
def Badger.Insert (b : Badger) (now : Nat) (fault : Option String)
    (taskID : String) (jsonData : Bytes) : Outcome (Option GoError) :=
  match b.closed, b.db with
  | true, _ => { ret := some (.errorsNew "database is closed"), state := b, effects := [] }
  | false, none => { ret := some (.errorsNew "database is closed"), state := b, effects := [] }
  | false, some db =>
    if jsonData.length > 10 * 1024 * 1024 then
      { ret := some (.errorsNew ("data too large: " ++ toString jsonData.length ++ " bytes"))
        state := b, effects := [] }
    else
      let update :=
        db.Update fault (fun txn =>
          let entry := (NewEntry taskID jsonData).WithTTL (300 * Second) now
          txn.SetEntry entry)
      match update with
      | .error err =>
        { ret := some (.errorsNew
            ("failed to save result for task " ++ taskID ++ ": " ++ err.Error))
          state := b
          effects := .engineUpdate taskID jsonData (300 * Second) ::
            LogAndCapture b.SentryBadger err "Failed to insert task"
              [("task_id", taskID), ("size", toString jsonData.length)] }
      | .ok db1 =>
        { ret := none
          state := { b with db := some db1 }
          effects := .engineUpdate taskID jsonData (300 * Second) ::
            (match b.AfterInsert with
             | some _ => [.goAfterInsert taskID jsonData]
             | none => []) }

/-- The method `Badger.Get`, called at instant `now`; `unmarshal` is `json.Unmarshal`
into an `interface{}`, `fault` the answer of the engine when the lookup fails. -/
def Badger.Get (unmarshal : Bytes → Except GoError Any) (b : Badger) (now : Nat)
    (fault : Option String) (taskID : String) : Outcome (Except GoError TaskResult) :=
  match b.closed, b.db with
  | true, _ => { ret := .error (.errorsNew "database is closed"), state := b, effects := [] }
  | false, none => { ret := .error (.errorsNew "database is closed"), state := b, effects := [] }
  | false, some db =>
    let view : Except GoError TaskResult :=
      db.View fault (fun txn =>
        match txn.Get taskID now with
        | .error err => .error err
        | .ok item =>
          item.Value (fun val =>
            match unmarshal val with
            | .error err => .error err
            | .ok data => .ok { Status := "completed", Data := data }))
    match view with
    | .error err =>
      if err.isKeyNotFound then
        { ret := .ok { Status := "pending", Data := .nil }, state := b
          effects := [.engineView taskID] }
      else
        { ret := .error err, state := b
          effects := .engineView taskID ::
            LogAndCapture b.SentryBadger err "Failed to get task" [("task_id", taskID)] }
    | .ok taskResult => { ret := .ok taskResult, state := b, effects := [.engineView taskID] }

/-- The method `Badger.Close`; `fault` is the answer of the engine when it does
not close cleanly. -/
def Badger.Close (b : Badger) (fault : Option String) : Outcome (Option GoError) :=
  match b.db with
  | none => { ret := none, state := b, effects := [] }
  | some db =>
    let cancelled : List Effect :=
      match b.cancelGC with
      | some ctx => [.cancel ctx]
      | none => []
    let after : Badger := { b with closed := true, db := none }
    match db.Close fault with
    | some err =>
      { ret := some err, state := after
        effects := cancelled ++ [.engineClose] ++
          LogAndCapture b.SentryBadger err "Failed to close BadgerDB" [] }
    | none =>
      { ret := none, state := after
        effects := cancelled ++ [.engineClose, .logInfo "BadgerDB closed successfully"] }

/-! ### The detached notification task of `Insert` -/

/-- How a goroutine ends: its function returns, or an unrecovered panic takes the
process down. -/
inductive GoroutineExit where
  | returned
  | crashed (v : String)
  deriving DecidableEq, Repr

/-- A function body under `defer func() { if r := recover(); r != nil { ... } }()`:
`handler` is the code run on the recovered value; without a deferred `recover` a
panic leaves the goroutine. -/
def runDeferred (handler : Option (String → List Effect))
    (body : CallbackResult × List Effect) : GoroutineExit × List Effect :=
  match body.1, handler with
  | .returned, _ => (.returned, body.2)
  | .panicked v, some h => (.returned, body.2 ++ h v)
  | .panicked v, none => (.crashed v, body.2)

/-- The body of the goroutine started by `Insert`; `cb` is the field `b.AfterInsert`
as the goroutine reads it (calling a nil function panics). -/
def afterInsertGoroutine (cb : Option Callback) (id : String) (data : Bytes) :
    GoroutineExit × List Effect :=
  runDeferred (some (fun r => [.logErrorf ("AfterInsert panic: " ++ r)]))
    (if data.length > 5 * 1024 * 1024 then
      (.returned, [.logWarn ("Large data skipped for async processing: " ++
        toString data.length ++ " bytes")])
    else
      match cb with
      | some f => (f id data, [])
      | none => (.panicked "invalid memory address or nil pointer dereference", []))

/-! ### Sequences of method calls -/

/-- One call of a method of the handle, with what the environment answers to it. -/
inductive Call where
  | Open (openResult : Except GoError DB) (ctx : Nat)
  | Insert (now : Nat) (fault : Option String) (taskID : String) (jsonData : Bytes)
  | Get (now : Nat) (fault : Option String) (taskID : String)
  | Close (fault : Option String)

/-- The handle after one call. -/
def Badger.step (unmarshal : Bytes → Except GoError Any) (b : Badger) : Call → Badger
  | .Open r ctx => (b.Open r ctx).state
  | .Insert now fault id data => (b.Insert now fault id data).state
  | .Get now fault id => (b.Get unmarshal now fault id).state
  | .Close fault => (b.Close fault).state

/-- The handle after a sequence of calls, made one after the other. -/
def Badger.run (unmarshal : Bytes → Except GoError Any) (b : Badger) : List Call → Badger
  | [] => b
  | c :: cs => Badger.run unmarshal (b.step unmarshal c) cs

/-- One `Insert` call: instant, answer of the engine, identifier and payload. -/
structure Write where
  now : Nat
  fault : Option String
  taskID : String
  jsonData : Bytes

/-- A sequence of `Insert` calls all of which succeed: the handle after the last
one, and `none` as soon as one call returns an error. -/
def Badger.insertAll (b : Badger) : List Write → Option Badger
  | [] => some b
  | w :: ws =>
    match (b.Insert w.now w.fault w.taskID w.jsonData).ret with
    | some _ => none
    | none => Badger.insertAll (b.Insert w.now w.fault w.taskID w.jsonData).state ws

/-- A freshly constructed handle `&Badger{Path: path, SentryBadger: hub,
AfterInsert: cb}`: the other fields hold the zero value. -/
def Badger.new (path : String) (hub : Option Hub) (cb : Option Callback) : Badger :=
  { db := none, Path := path, SentryBadger := hub, AfterInsert := cb
    closed := false, cancelGC := none }

/-! ### The reclamation worker, step by step -/

/-- Where the goroutine `valueLogGCWorker` stands. -/
inductive WorkerPC where
  /-- Blocked in the `select`. -/
  | atSelect
  /-- The case `<-ticker.C` was taken; next is the critical section. -/
  | atCheck
  /-- The read lock was released with the handle seen open; next is
  `b.db.RunValueLogGC(0.7)`. -/
  | atReclaim
  /-- The function returned. -/
  | exited
  /-- The goroutine panicked (nothing recovers in it). -/
  | crashed
  deriving DecidableEq, Repr

/-- What an observer of the handle and of the engine sees. -/
inductive Obs where
  /-- An effect of the worker or of `Close`. -/
  | effect (e : Effect)
  /-- A call of `Close` has returned. -/
  | closeReturned (ret : Option GoError)
  deriving DecidableEq, Repr

/-- A handle together with its worker: the contexts cancelled so far, the context
and position of the worker, and the observations so far, oldest first. -/
structure Sys where
  handle : Badger
  cancelled : List Nat
  ctx : Nat
  pc : WorkerPC
  trace : List Obs

/-- The atomic steps of the worker and of a caller of `Close`.  `Close` holds
the exclusive lock from its first to its last statement and the check of the
worker holds the shared lock, so each of them is one step. -/
inductive Step where
  /-- The `select` takes `<-ctx.Done()`. -/
  | workerDone
  /-- The `select` takes `<-ticker.C`. -/
  | workerTick
  /-- The statements from `b.mutex.RLock()` to `b.mutex.RUnlock()`. -/
  | workerCheck
  /-- The call `b.db.RunValueLogGC(0.7)` with its answer, and the warning. -/
  | workerReclaim (r : GCResult)
  /-- A whole call of `Close`. -/
  | close (fault : Option String)
  deriving DecidableEq, Repr

/-- The contexts cancelled by a list of effects. -/
def cancelledBy : List Effect → List Nat
  | [] => []
  | .cancel c :: es => c :: cancelledBy es
  | _ :: es => cancelledBy es

/-- The goroutine `valueLogGCWorker`, one step at a time; `none` when the worker
cannot take the step where it stands. -/
def Sys.valueLogGCWorker (s : Sys) : Step → Option Sys
  | .workerDone =>
    if s.pc = .atSelect ∧ s.ctx ∈ s.cancelled then some { s with pc := .exited } else none
  | .workerTick =>
    if s.pc = .atSelect then some { s with pc := .atCheck } else none
  | .workerCheck =>
    if s.pc = .atCheck then
      if s.handle.closed || s.handle.db.isNone then some { s with pc := .exited }
      else some { s with pc := .atReclaim }
    else none
  | .workerReclaim r =>
    if s.pc = .atReclaim then
      match s.handle.db with
      | none =>
        some { s with pc := .crashed, trace := s.trace ++ [.effect (.engineGC false)] }
      | some _ =>
        some { s with
          pc := .atSelect
          trace := s.trace ++ .effect (.engineGC true) ::
            (match r with
             | .failed m => [.effect (.logWarn ("ValueLog GC failed: " ++ m))]
             | _ => []) }
    else none
  | .close _ => none

/-- One step of the system: a step of the worker, or a whole call of `Close` by
another goroutine; `none` when the step cannot be taken in this state. -/
def Sys.step (s : Sys) : Step → Option Sys
  | .close fault =>
    let out := s.handle.Close fault
    some { s with
      handle := out.state
      cancelled := cancelledBy out.effects ++ s.cancelled
      trace := s.trace ++ out.effects.map Obs.effect ++ [.closeReturned out.ret] }
  | st => s.valueLogGCWorker st

/-- A schedule: the steps in the order they are taken. -/
def Sys.run (s : Sys) : List Step → Option Sys
  | [] => some s
  | st :: sts =>
    match s.step st with
    | none => none
    | some s1 => Sys.run s1 sts

/-- The system right after a successful `Open` of a fresh handle on engine `db`:
the worker is blocked in its `select`. -/
def Sys.opened (b : Badger) (db : DB) (ctx : Nat) : Sys :=
  { handle := (b.Open (.ok db) ctx).state, cancelled := [], ctx := ctx
    pc := .atSelect, trace := [] }

/-- Tells whether an observation is the start of a reclaim on the engine. -/
def Obs.isReclaim : Obs → Bool
  | .effect (.engineGC _) => true
  | _ => false

/-- Tells whether, in a trace, a reclaim starts after a call of `Close` has returned. -/
def reclaimAfterClose : List Obs → Bool
  | [] => false
  | .closeReturned _ :: rest => rest.any Obs.isReclaim || reclaimAfterClose rest
  | _ :: rest => reclaimAfterClose rest

/-- The error returned by `Insert` and `Get` on a handle that is not open. -/
def closedError : GoError := .errorsNew "database is closed"

/-- The error returned by `Insert` for a payload of `n` bytes above the ceiling. -/
def payloadTooLargeError (n : Nat) : GoError :=
  .errorsNew ("data too large: " ++ toString n ++ " bytes")

/-- The result `&TaskResult{Status: "pending"}`. -/
def pending : TaskResult := { Status := "pending", Data := .nil }

/-- The result `TaskResult{Status: "completed", Data: data}`. -/
def completed (data : Any) : TaskResult := { Status := "completed", Data := data }

/-- The entry written by `Insert(taskID, jsonData)` at instant `now`. -/
def insertedEntry (now : Nat) (taskID : String) (jsonData : Bytes) : Entry :=
  (NewEntry taskID jsonData).WithTTL (300 * Second) now

/-- A handle opened on an engine without records: `Open` has succeeded on a
fresh handle. -/
def liveHandle : Badger :=
  ((Badger.new "/var/lib/inject" none none).Open (.ok DB.empty) 1).state

/-- The document `{"x":1}`. -/
def docX1 : Bytes := [0x7b, 0x22, 0x78, 0x22, 0x3a, 0x31, 0x7d]

/-- The document `{"x":2}`. -/
def docX2 : Bytes := [0x7b, 0x22, 0x78, 0x22, 0x3a, 0x32, 0x7d]

/-- The document `1e400`: a number of the JSON grammar above the range of
`float64`. -/
def doc1e400 : Bytes := [0x31, 0x65, 0x34, 0x30, 0x30]

/-- The two bytes `hi`, which are not a JSON document. -/
def notJSON : Bytes := [0x68, 0x69]

/-- A payload of 10 MiB and one byte. -/
def oversized : Bytes := List.replicate (10 * 1024 * 1024 + 1) 0

/-- A callback that panics on every invocation. -/
def faultyCallback : Callback := fun _ _ => .panicked "boom"

/-- Tells whether an effect starts a reclamation worker. -/
def Effect.isGoWorker : Effect → Bool
  | .goWorker _ => true
  | _ => false

/-- A call that neither closes the handle nor inserts under `id`. -/
def Call.leaves (id : String) : Call → Bool
  | .Close _ => false
  | .Insert _ _ taskID _ => taskID != id
  | _ => true

/-! ## Definitions used in the lemmas and in the statements -/

/-- The newest entry of the engine under a key, expired or not. -/
def DB.newest (db : DB) (key : String) : Option Entry :=
  db.entries.find? (fun e => e.Key == key)

/-- The value returned by `Get` on an open handle, from the newest entry under
the identifier. -/
def getResult (unmarshal : Bytes → Except GoError Any) (found : Option Entry) (now : Nat)
    (fault : Option String) : Except GoError TaskResult :=
  match fault with
  | some m => .error (.engine m)
  | none =>
    match found with
    | none => .ok pending
    | some e =>
      if e.expired now then .ok pending
      else
        match unmarshal e.Value with
        | .ok d => .ok (completed d)
        | .error err => if err.isKeyNotFound then .ok pending else .error err

/-- The entry written by a call of `Insert`. -/
def Write.entry (w : Write) : Entry := insertedEntry w.now w.taskID w.jsonData

/-! ### The last-write-wins map of the specification -/

/-- The last call of a sequence of `Insert` calls that used `id`, if any. -/
def lastWrite (ws : List Write) (id : String) : Option Write :=
  ws.reverse.find? (fun w => w.taskID == id)

/-- A write into a map from identifiers to payloads: it replaces what the map held
under the identifier of the write. -/
def recordWrite (m : String → Option Bytes) (w : Write) : String → Option Bytes :=
  Function.update m w.taskID (some w.jsonData)

/-- The map from identifiers to payloads after a sequence of writes into the
map without records. -/
def lastWriteWins (ws : List Write) : String → Option Bytes :=
  ws.foldl recordWrite (fun _ => none)

/-- The read projection of a map of records: `pending` when the map holds no
record for the identifier, otherwise `completed` with the deserialized payload. -/
def specGet (unmarshal : Bytes → Except GoError Any) (m : String → Option Bytes)
    (id : String) : Except GoError TaskResult :=
  match m id with
  | none => .ok pending
  | some p =>
    match unmarshal p with
    | .ok d => .ok (completed d)
    | .error e => .error e

/-! ## Lemmas on single calls -/

theorem insert_of_not_open (b : Badger) (now : Nat) (fault : Option String) (id : String)
    (payload : Bytes) (h : b.closed = true ∨ b.db = none) :
    b.Insert now fault id payload = { ret := some closedError, state := b, effects := [] } := by
  unfold Badger.Insert closedError
  rcases h with h | h
  · rw [h]
  · rw [h]; cases b.closed <;> rfl

theorem get_of_not_open (unmarshal : Bytes → Except GoError Any) (b : Badger) (now : Nat)
    (fault : Option String) (id : String) (h : b.closed = true ∨ b.db = none) :
    b.Get unmarshal now fault id = { ret := .error closedError, state := b, effects := [] } := by
  unfold Badger.Get closedError
  rcases h with h | h
  · rw [h]
  · rw [h]; cases b.closed <;> rfl

theorem insert_too_large (b : Badger) (db : DB) (now : Nat) (fault : Option String)
    (id : String) (payload : Bytes) (hopen : b.closed = false) (hdb : b.db = some db)
    (hbig : 10 * 1024 * 1024 < payload.length) :
    b.Insert now fault id payload =
      { ret := some (payloadTooLargeError payload.length), state := b, effects := [] } := by
  unfold Badger.Insert payloadTooLargeError
  rw [hopen, hdb]
  simp only [gt_iff_lt, hbig, if_true]

theorem insert_accepted (b : Badger) (db : DB) (now : Nat) (id : String) (payload : Bytes)
    (hopen : b.closed = false) (hdb : b.db = some db)
    (hsize : payload.length ≤ 10 * 1024 * 1024) :
    b.Insert now none id payload =
      { ret := none
        state := { b with db := some { entries := insertedEntry now id payload :: db.entries } }
        effects := .engineUpdate id payload (300 * Second) ::
          (match b.AfterInsert with
           | some _ => [.goAfterInsert id payload]
           | none => []) } := by
  unfold Badger.Insert
  rw [hopen, hdb]
  have hnot : ¬ (payload.length > 10 * 1024 * 1024) := by omega
  simp only [hnot, if_false]
  rfl

theorem insert_refused (b : Badger) (db : DB) (now : Nat) (m : String) (id : String)
    (payload : Bytes) (hopen : b.closed = false) (hdb : b.db = some db)
    (hsize : payload.length ≤ 10 * 1024 * 1024) :
    (b.Insert now (some m) id payload).ret =
        some (.errorsNew ("failed to save result for task " ++ id ++ ": " ++ m)) ∧
      (b.Insert now (some m) id payload).state = b := by
  unfold Badger.Insert
  rw [hopen, hdb]
  have hnot : ¬ (payload.length > 10 * 1024 * 1024) := by omega
  simp only [hnot, if_false]
  exact ⟨rfl, rfl⟩

/-- A successful `Insert` was made on an open handle with a payload within the
ceiling and an engine that accepted the write. -/
theorem insert_ok_inv (b : Badger) (now : Nat) (fault : Option String) (id : String)
    (payload : Bytes) (h : (b.Insert now fault id payload).ret = none) :
    b.closed = false ∧ (∃ db, b.db = some db) ∧ payload.length ≤ 10 * 1024 * 1024 ∧
      fault = none := by
  have hc : b.closed = false := by
    cases hcl : b.closed with
    | false => rfl
    | true =>
      rw [insert_of_not_open b now fault id payload (Or.inl hcl)] at h
      cases h
  cases hdb : b.db with
  | none =>
    rw [insert_of_not_open b now fault id payload (Or.inr hdb)] at h
    cases h
  | some db =>
    by_cases hbig : 10 * 1024 * 1024 < payload.length
    · rw [insert_too_large b db now fault id payload hc hdb hbig] at h
      cases h
    · have hsize : payload.length ≤ 10 * 1024 * 1024 := by omega
      cases fault with
      | none => exact ⟨hc, ⟨db, rfl⟩, hsize, rfl⟩
      | some m =>
        rw [(insert_refused b db now m id payload hc hdb hsize).1] at h
        cases h

theorem get_state (unmarshal : Bytes → Except GoError Any) (b : Badger) (now : Nat)
    (fault : Option String) (id : String) : (b.Get unmarshal now fault id).state = b := by
  unfold Badger.Get
  split
  · rfl
  · rfl
  · dsimp only
    split
    · split <;> rfl
    · rfl

theorem open_closed (b : Badger) (r : Except GoError DB) (ctx : Nat) :
    (b.Open r ctx).state.closed = b.closed := by
  unfold Badger.Open
  split
  · rfl
  · split <;> rfl

theorem open_of_open (b : Badger) (db : DB) (r : Except GoError DB) (ctx : Nat)
    (hdb : b.db = some db) : b.Open r ctx = { ret := none, state := b, effects := [] } := by
  unfold Badger.Open
  rw [hdb]

theorem close_of_no_engine (b : Badger) (fault : Option String) (hdb : b.db = none) :
    b.Close fault = { ret := none, state := b, effects := [] } := by
  unfold Badger.Close
  rw [hdb]

theorem close_of_engine (b : Badger) (db : DB) (fault : Option String) (hdb : b.db = some db) :
    (b.Close fault).state = { b with closed := true, db := none } ∧
      (b.Close fault).ret = fault.map GoError.engine := by
  unfold Badger.Close
  rw [hdb]
  cases fault <;> exact ⟨rfl, rfl⟩

theorem close_db (b : Badger) (fault : Option String) : (b.Close fault).state.db = none := by
  cases hdb : b.db with
  | none => rw [close_of_no_engine b fault hdb]; exact hdb
  | some db => rw [(close_of_engine b db fault hdb).1]

theorem close_closed (b : Badger) (fault : Option String) (h : b.closed = true) :
    (b.Close fault).state.closed = true := by
  cases hdb : b.db with
  | none => rw [close_of_no_engine b fault hdb]; exact h
  | some db => rw [(close_of_engine b db fault hdb).1]

theorem insert_closed (b : Badger) (now : Nat) (fault : Option String) (id : String)
    (payload : Bytes) (h : b.closed = true) :
    (b.Insert now fault id payload).state.closed = true := by
  rw [insert_of_not_open b now fault id payload (Or.inl h)]
  exact h

/-- No call resets the closed flag. -/
theorem step_closed (unmarshal : Bytes → Except GoError Any) (b : Badger) (c : Call)
    (h : b.closed = true) : (b.step unmarshal c).closed = true := by
  cases c with
  | Open r ctx => simp only [Badger.step]; rw [open_closed]; exact h
  | Insert now fault id data => exact insert_closed b now fault id data h
  | Get now fault id => simp only [Badger.step]; rw [get_state]; exact h
  | Close fault => exact close_closed b fault h

theorem run_closed (unmarshal : Bytes → Except GoError Any) (calls : List Call) :
    ∀ b : Badger, b.closed = true → (Badger.run unmarshal b calls).closed = true := by
  induction calls with
  | nil => intro b h; exact h
  | cons c cs ih => intro b h; exact ih _ (step_closed unmarshal b c h)

/-- The return value of `Insert` and the engine it leaves do not depend on the
field `AfterInsert`. -/
theorem insert_callback_indep (b : Badger) (cb : Option Callback) (now : Nat)
    (fault : Option String) (id : String) (payload : Bytes) :
    (({ b with AfterInsert := cb } : Badger).Insert now fault id payload).ret =
        (({ b with AfterInsert := none } : Badger).Insert now fault id payload).ret ∧
      (({ b with AfterInsert := cb } : Badger).Insert now fault id payload).state.db =
        (({ b with AfterInsert := none } : Badger).Insert now fault id payload).state.db := by
  by_cases h : b.closed = true ∨ b.db = none
  · rw [insert_of_not_open ({ b with AfterInsert := cb } : Badger) now fault id payload h,
      insert_of_not_open ({ b with AfterInsert := none } : Badger) now fault id payload h]
    exact ⟨rfl, rfl⟩
  · have hopen : b.closed = false := by
      cases hc : b.closed with
      | false => rfl
      | true => exact absurd (Or.inl hc) h
    obtain ⟨db, hdb⟩ : ∃ db, b.db = some db := by
      cases hd : b.db with
      | none => exact absurd (Or.inr hd) h
      | some db => exact ⟨db, rfl⟩
    by_cases hbig : 10 * 1024 * 1024 < payload.length
    · rw [insert_too_large ({ b with AfterInsert := cb } : Badger) db now fault id payload
          hopen hdb hbig,
        insert_too_large ({ b with AfterInsert := none } : Badger) db now fault id payload
          hopen hdb hbig]
      exact ⟨rfl, rfl⟩
    · have hsize : payload.length ≤ 10 * 1024 * 1024 := by omega
      cases fault with
      | none =>
        rw [insert_accepted ({ b with AfterInsert := cb } : Badger) db now id payload
            hopen hdb hsize,
          insert_accepted ({ b with AfterInsert := none } : Badger) db now id payload
            hopen hdb hsize]
        exact ⟨rfl, rfl⟩
      | some m =>
        have h1 := insert_refused ({ b with AfterInsert := cb } : Badger) db now m id payload
          hopen hdb hsize
        have h2 := insert_refused ({ b with AfterInsert := none } : Badger) db now m id payload
          hopen hdb hsize
        rw [h1.1, h2.1, h1.2, h2.2]
        exact ⟨rfl, hdb.trans hdb.symm⟩

/-! ## Lemmas on `Get` and on the records of the engine -/

theorem get_ret (unmarshal : Bytes → Except GoError Any) (b : Badger) (db : DB) (now : Nat)
    (fault : Option String) (id : String) (hopen : b.closed = false) (hdb : b.db = some db) :
    (b.Get unmarshal now fault id).ret = getResult unmarshal (db.newest id) now fault := by
  unfold Badger.Get getResult DB.newest
  rw [hopen, hdb]
  dsimp only
  cases fault with
  | some m => rfl
  | none =>
    simp only [DB.View, Txn.Get, Item.Value]
    cases hf : db.entries.find? (fun e => e.Key == id) with
    | none => rfl
    | some e =>
      dsimp only
      cases he : e.expired now with
      | true => rfl
      | false =>
        simp only [Bool.false_eq_true, if_false]
        cases hu : unmarshal e.Value with
        | ok d => rfl
        | error err =>
          dsimp only
          cases hk : err.isKeyNotFound <;> rfl

/-- What `Insert` does to the handle: nothing, or one new entry in front of the
records of the engine. -/
theorem insert_state_cases (b : Badger) (now : Nat) (fault : Option String) (id : String)
    (payload : Bytes) :
    ((b.Insert now fault id payload).ret ≠ none ∧ (b.Insert now fault id payload).state = b) ∨
      (∃ db, b.closed = false ∧ b.db = some db ∧ (b.Insert now fault id payload).ret = none ∧
        (b.Insert now fault id payload).state =
          { b with db := some { entries := insertedEntry now id payload :: db.entries } }) := by
  by_cases h : b.closed = true ∨ b.db = none
  · left
    rw [insert_of_not_open b now fault id payload h]
    exact ⟨by simp, rfl⟩
  · have hopen : b.closed = false := by
      cases hc : b.closed with
      | false => rfl
      | true => exact absurd (Or.inl hc) h
    obtain ⟨db, hdb⟩ : ∃ db, b.db = some db := by
      cases hd : b.db with
      | none => exact absurd (Or.inr hd) h
      | some db => exact ⟨db, rfl⟩
    by_cases hbig : 10 * 1024 * 1024 < payload.length
    · left
      rw [insert_too_large b db now fault id payload hopen hdb hbig]
      exact ⟨by simp, rfl⟩
    · have hsize : payload.length ≤ 10 * 1024 * 1024 := by omega
      cases fault with
      | none =>
        right
        refine ⟨db, hopen, hdb, ?_, ?_⟩
        · rw [insert_accepted b db now id payload hopen hdb hsize]
        · rw [insert_accepted b db now id payload hopen hdb hsize]
      | some m =>
        left
        have h1 := insert_refused b db now m id payload hopen hdb hsize
        rw [h1.1, h1.2]
        exact ⟨by simp, rfl⟩

theorem newest_cons_other (db : DB) (e : Entry) (id : String) (h : e.Key ≠ id) :
    DB.newest { entries := e :: db.entries } id = db.newest id := by
  unfold DB.newest
  have hk : (e.Key == id) = false := by simpa using h
  simp only [List.find?, hk]

theorem newest_cons_same (db : DB) (e : Entry) :
    DB.newest { entries := e :: db.entries } e.Key = some e := by
  unfold DB.newest
  simp [List.find?]

/-- An `Insert` under another identifier does not change what `Get` returns. -/
theorem get_after_insert_other (unmarshal : Bytes → Except GoError Any) (b : Badger)
    (t : Nat) (fault : Option String) (id2 : String) (payload : Bytes) (now : Nat)
    (f : Option String) (id : String) (hne : id2 ≠ id) :
    ((b.Insert t fault id2 payload).state.Get unmarshal now f id).ret =
      (b.Get unmarshal now f id).ret := by
  rcases insert_state_cases b t fault id2 payload with h | ⟨db, hopen, hdb, _, hst⟩
  · rw [h.2]
  · have h1 := get_ret unmarshal
      ({ b with db := some { entries := insertedEntry t id2 payload :: db.entries } } : Badger)
      { entries := insertedEntry t id2 payload :: db.entries } now f id hopen rfl
    rw [hst, h1, get_ret unmarshal b db now f id hopen hdb,
      newest_cons_other db (insertedEntry t id2 payload) id hne]

/-- After a sequence of successful `Insert` calls the handle is open and its
engine holds the written entries, newest first, in front of the old ones. -/
theorem insertAll_db (ws : List Write) :
    ∀ (b b1 : Badger) (db : DB), b.closed = false → b.db = some db →
      b.insertAll ws = some b1 →
      b1.closed = false ∧ b1.db = some { entries := (ws.map Write.entry).reverse ++ db.entries } := by
  induction ws with
  | nil =>
    intro b b1 db hopen hdb h
    simp only [Badger.insertAll, Option.some.injEq] at h
    subst h
    exact ⟨hopen, by simpa using hdb⟩
  | cons w ws ih =>
    intro b b1 db hopen hdb h
    rcases insert_state_cases b w.now w.fault w.taskID w.jsonData with hc | ⟨db0, _, hdb0, hret, hst⟩
    · simp only [Badger.insertAll] at h
      split at h
      · cases h
      · rename_i hr
        exact absurd hr hc.1
    · simp only [Badger.insertAll, hret] at h
      rw [hdb] at hdb0
      cases hdb0
      rw [hst] at h
      have := ih
        ({ b with db := some { entries := insertedEntry w.now w.taskID w.jsonData :: db.entries } } :
          Badger)
        b1 { entries := insertedEntry w.now w.taskID w.jsonData :: db.entries } hopen rfl h
      refine ⟨this.1, ?_⟩
      rw [this.2]
      simp [Write.entry]

/-! ## Agreement with the last-write-wins map -/

theorem lww_agree (id : String) (ws : List Write) :
    ∀ (m0 : String → Option Bytes) (l0 : List Entry),
      (l0.find? (fun e => e.Key == id)).map Entry.Value = m0 id →
      (((ws.map Write.entry).reverse ++ l0).find? (fun e => e.Key == id)).map Entry.Value =
        ws.foldl recordWrite m0 id := by
  induction ws with
  | nil => intro m0 l0 h; simpa using h
  | cons w ws ih =>
    intro m0 l0 h
    have hre : ((w :: ws).map Write.entry).reverse ++ l0 =
        (ws.map Write.entry).reverse ++ (w.entry :: l0) := by
      simp [List.map_cons, List.reverse_cons, List.append_assoc]
    rw [hre, List.foldl_cons]
    apply ih
    by_cases hk : w.taskID = id
    · subst hk
      simp [List.find?, Write.entry, insertedEntry, NewEntry, Entry.WithTTL, recordWrite]
    · have hb : (w.entry.Key == id) = false := by
        simpa [Write.entry, insertedEntry, NewEntry, Entry.WithTTL] using hk
      have hk2 : id ≠ w.taskID := fun h => hk h.symm
      simp only [List.find?, hb, recordWrite, Function.update_noteq hk2]
      exact h

/-- The newest entry under `id` after a sequence of writes is the entry of the
last write that used `id`, or else the newest entry the engine held before. -/
theorem newest_after_writes (ws : List Write) (l0 : List Entry) (id : String) :
    ((ws.map Write.entry).reverse ++ l0).find? (fun e : Entry => e.Key == id) =
      ((lastWrite ws id).map Write.entry).or (l0.find? (fun e : Entry => e.Key == id)) := by
  rw [List.find?_append, ← List.map_reverse, List.find?_map]
  rfl

theorem lastWriteWins_eq (ws : List Write) (id : String) :
    lastWriteWins ws id = (lastWrite ws id).map Write.jsonData := by
  have h := lww_agree id ws (fun _ => none) [] rfl
  rw [newest_after_writes ws [] id] at h
  unfold lastWriteWins
  rw [← h]
  cases lastWrite ws id <;> rfl

theorem lastWrite_none (ws : List Write) (id : String) (h : ∀ w ∈ ws, w.taskID ≠ id) :
    lastWrite ws id = none := by
  unfold lastWrite
  rw [List.find?_eq_none]
  intro w hw
  have := h w (List.mem_reverse.mp hw)
  simpa using this

/-- The goroutine started by `Insert` does not call the callback for a payload
above 5 MiB: it logs a warning and returns. -/
theorem afterInsertGoroutine_skips_large (cb : Option Callback) (id : String) (data : Bytes)
    (h : 5 * 1024 * 1024 < data.length) :
    afterInsertGoroutine cb id data =
      (.returned, [.logWarn ("Large data skipped for async processing: " ++
        toString data.length ++ " bytes")]) := by
  unfold afterInsertGoroutine
  simp only [gt_iff_lt, h, if_true]
  rfl

theorem entry_not_expired (w : Write) (now : Nat) (h : now < w.now + 300 * Second) :
    w.entry.expired now = false := by
  have h2 : ¬ (w.now + 300 * Second ≤ now) := by omega
  simp [Entry.expired, Write.entry, insertedEntry, NewEntry, Entry.WithTTL, h2]

theorem entry_expired (t : Nat) (id : String) (payload : Bytes) (now : Nat)
    (h : t + 300 * Second ≤ now) : (insertedEntry t id payload).expired now = true := by
  have h0 : (t + 300 * Second != 0) = true := by
    have : t + 300 * Second ≠ 0 := by simp [Second]
    simpa using this
  simp only [Entry.expired, insertedEntry, NewEntry, Entry.WithTTL, h0, Bool.true_and]
  simpa using h

/-- The calls that neither close the handle nor insert under `id` keep the
handle open and keep the newest entry under `id`. -/
theorem run_leaves (unmarshal : Bytes → Except GoError Any) (id : String) (e : Entry)
    (calls : List Call) :
    ∀ b : Badger, b.closed = false → (∃ db, b.db = some db ∧ db.newest id = some e) →
      (∀ c ∈ calls, c.leaves id = true) →
      (Badger.run unmarshal b calls).closed = false ∧
        ∃ db, (Badger.run unmarshal b calls).db = some db ∧ db.newest id = some e := by
  induction calls with
  | nil => intro b hopen hdb _; exact ⟨hopen, hdb⟩
  | cons c cs ih =>
    intro b hopen hdb hcs
    obtain ⟨db, hdb, hnew⟩ := hdb
    have hc : c.leaves id = true := hcs c (List.mem_cons_self c cs)
    have hrest : ∀ c1 ∈ cs, c1.leaves id = true :=
      fun c1 h1 => hcs c1 (List.mem_cons_of_mem c h1)
    have hstep : (b.step unmarshal c).closed = false ∧
        ∃ db1, (b.step unmarshal c).db = some db1 ∧ db1.newest id = some e := by
      cases c with
      | Open r ctx =>
        simp only [Badger.step]
        rw [open_of_open b db r ctx hdb]
        exact ⟨hopen, db, hdb, hnew⟩
      | Insert t fault id2 data =>
        simp only [Badger.step]
        have hne : id2 ≠ id := by simpa [Call.leaves] using hc
        rcases insert_state_cases b t fault id2 data with h | ⟨db0, _, hdb0, _, hst⟩
        · rw [h.2]
          exact ⟨hopen, db, hdb, hnew⟩
        · rw [hdb] at hdb0
          cases hdb0
          rw [hst]
          refine ⟨hopen, _, rfl, ?_⟩
          rw [newest_cons_other db (insertedEntry t id2 data) id hne]
          exact hnew
      | Get t fault id2 =>
        simp only [Badger.step]
        rw [get_state]
        exact ⟨hopen, db, hdb, hnew⟩
      | Close fault => simp [Call.leaves] at hc
    exact ih _ hstep.1 hstep.2 hrest

/-! ## The claims -/

/-- Claim C1 as stated fails on the code: `Insert` stores the payload as it is,
without checking that it is a JSON document.  `Insert` of the two bytes `hi`
succeeds, and the `Get` that follows it at once does not return `completed`: it
returns the error of the decoder. -/
theorem C1_roundtrip_fails_on_undecodable_payload :
    (liveHandle.Insert 0 none "t1" notJSON).ret = none ∧
      ((liveHandle.Insert 0 none "t1" notJSON).state.Get jsonUnmarshal 0 none "t1").ret =
        .error errInvalidCharacter :=
  ⟨rfl, rfl⟩

/-- Claim C1, amended.  If `Insert(id, payload)` succeeds at instant `t`, the payload
deserializes to `d`, and `Get(id)` is called on the handle right after it, before
the 300 seconds of the time-to-live have passed and with an engine that does not
fail, then `Get` succeeds and returns `completed` with `d`. -/
theorem C1_roundtrip_of_decodable_payload (unmarshal : Bytes → Except GoError Any)
    (b : Badger) (t now : Nat) (fault : Option String) (id : String) (payload : Bytes)
    (d : Any) (hins : (b.Insert t fault id payload).ret = none)
    (httl : now < t + 300 * Second) (hjson : unmarshal payload = .ok d) :
    ((b.Insert t fault id payload).state.Get unmarshal now none id).ret =
      .ok (completed d) := by
  rcases insert_state_cases b t fault id payload with h | ⟨db, hopen, _, _, hst⟩
  · exact absurd hins h.1
  · have h1 := get_ret unmarshal
      ({ b with db := some { entries := insertedEntry t id payload :: db.entries } } : Badger)
      { entries := insertedEntry t id payload :: db.entries } now none id hopen rfl
    have h2 : DB.newest { entries := insertedEntry t id payload :: db.entries } id =
        some (insertedEntry t id payload) := newest_cons_same db (insertedEntry t id payload)
    have h3 : (insertedEntry t id payload).expired now = false :=
      entry_not_expired { now := t, fault := fault, taskID := id, jsonData := payload } now httl
    have h4 : unmarshal (insertedEntry t id payload).Value = .ok d := hjson
    rw [hst, h1, h2]
    simp only [getResult, h3, h4, Bool.false_eq_true, if_false]

/-- Witness of claim C1: the document `{"x":1}`, read back 299 seconds later. -/
theorem C1_witness :
    ((liveHandle.Insert 0 none "t1" docX1).state.Get jsonUnmarshal (299 * Second) none "t1").ret =
      .ok (completed (.object [([0x78], .number [0x31])])) :=
  C1_roundtrip_of_decodable_payload jsonUnmarshal liveHandle 0 (299 * Second) none "t1" docX1
    (.object [([0x78], .number [0x31])]) rfl (by decide) rfl

/-- Claim C2 as stated fails on the code: `Insert` stores a valid JSON document
that the decoder of the library does not accept, and `Get` then returns the error
of the decoder.  The payload `1e400` is a document of the JSON grammar; its
`Insert` succeeds on an open handle without records, and the `Get` made one
nanosecond later, with an engine that does not fail, does not return `completed`
but the error of the number conversion. -/
theorem C2_valid_json_rejected_by_decoder :
    jsonValid doc1e400 = true ∧
      liveHandle.insertAll [{ now := 0, fault := none, taskID := "t1", jsonData := doc1e400 }] =
        some (liveHandle.Insert 0 none "t1" doc1e400).state ∧
      ((liveHandle.Insert 0 none "t1" doc1e400).state.Get jsonUnmarshal 1 none "t1").ret =
        .error (errNumberRange doc1e400) :=
  ⟨rfl, rfl, rfl⟩

/-- Claim C2, amended.  Take an open handle and any sequence of `Insert` calls
that all succeed, and a `Get(id)` made afterwards with an engine that does not
fail.  When no call of the sequence used `id` and the engine held no record under
`id` before, `Get` returns `pending` without error.  When the last call that used
`id` wrote a payload that the decoder accepts, and its time-to-live has not
passed, `Get` returns `completed` with the deserialization of that payload.  In
both cases `Get` returns the read projection of the last-write-wins map of the
sequence.  An `Insert` under another identifier does not change what `Get(id)`
returns. -/
theorem C2_get_agrees_with_last_write_wins (unmarshal : Bytes → Except GoError Any)
    (b b1 : Badger) (db0 : DB) (ws : List Write) (now : Nat) (id : String)
    (hopen : b.closed = false) (hdb : b.db = some db0)
    (hins : b.insertAll ws = some b1) :
    ((∀ w ∈ ws, w.taskID ≠ id) → db0.newest id = none →
        (b1.Get unmarshal now none id).ret = .ok pending) ∧
      (∀ (w : Write) (d : Any), lastWrite ws id = some w → now < w.now + 300 * Second →
        unmarshal w.jsonData = .ok d →
        (b1.Get unmarshal now none id).ret = .ok (completed d)) ∧
      (db0.newest id = none →
        (∀ w : Write, lastWrite ws id = some w →
          now < w.now + 300 * Second ∧ ∃ d, unmarshal w.jsonData = .ok d) →
        (b1.Get unmarshal now none id).ret = specGet unmarshal (lastWriteWins ws) id) ∧
      (∀ (t : Nat) (fault : Option String) (id2 : String) (payload : Bytes) (f : Option String),
        id2 ≠ id →
        ((b1.Insert t fault id2 payload).state.Get unmarshal now f id).ret =
          (b1.Get unmarshal now f id).ret) := by
  obtain ⟨hopen1, hdb1⟩ := insertAll_db ws b b1 db0 hopen hdb hins
  have hget : (b1.Get unmarshal now none id).ret =
      getResult unmarshal
        (((lastWrite ws id).map Write.entry).or (db0.newest id)) now none := by
    rw [get_ret unmarshal b1 _ now none id hopen1 hdb1]
    unfold DB.newest
    rw [newest_after_writes ws db0.entries id]
  have hpending : lastWrite ws id = none → db0.newest id = none →
      (b1.Get unmarshal now none id).ret = .ok pending := by
    intro hl hfresh
    rw [hget, hl, hfresh]
    rfl
  have hcompleted : ∀ (w : Write) (d : Any), lastWrite ws id = some w →
      now < w.now + 300 * Second → unmarshal w.jsonData = .ok d →
      (b1.Get unmarshal now none id).ret = .ok (completed d) := by
    intro w d hl httl hd
    have hd2 : unmarshal w.entry.Value = .ok d := hd
    rw [hget, hl]
    simp [getResult, entry_not_expired w now httl, hd2]
  refine ⟨fun hnone hfresh => hpending (lastWrite_none ws id hnone) hfresh, hcompleted, ?_, ?_⟩
  · intro hfresh hlast
    unfold specGet
    rw [lastWriteWins_eq ws id]
    cases hl : lastWrite ws id with
    | none =>
      rw [hpending hl hfresh]
      rfl
    | some w =>
      obtain ⟨httl, d, hd⟩ := hlast w hl
      rw [hcompleted w d hl httl hd]
      simp [hd]
  · intro t fault id2 payload f hne
    exact get_after_insert_other unmarshal b1 t fault id2 payload now f id hne

/-- Witness of claim C2: the scenario of the specification.  `{"x":1}` then
`{"x":2}` are inserted under `t1`; `Get("t1")` returns `completed` with the second
document and `Get("t2")` returns `pending`. -/
theorem C2_witness :
    (((liveHandle.Insert 0 none "t1" docX1).state.Insert 1 none "t1" docX2).state.Get
        jsonUnmarshal 2 none "t1").ret = .ok (completed (.object [([0x78], .number [0x32])])) ∧
      (((liveHandle.Insert 0 none "t1" docX1).state.Insert 1 none "t1" docX2).state.Get
        jsonUnmarshal 2 none "t2").ret = .ok pending :=
  ⟨(C2_get_agrees_with_last_write_wins jsonUnmarshal liveHandle
      ((liveHandle.Insert 0 none "t1" docX1).state.Insert 1 none "t1" docX2).state DB.empty
      [{ now := 0, fault := none, taskID := "t1", jsonData := docX1 },
       { now := 1, fault := none, taskID := "t1", jsonData := docX2 }] 2 "t1" rfl rfl rfl).2.1
      { now := 1, fault := none, taskID := "t1", jsonData := docX2 }
      (.object [([0x78], .number [0x32])]) rfl (by decide) rfl,
    (C2_get_agrees_with_last_write_wins jsonUnmarshal liveHandle
      ((liveHandle.Insert 0 none "t1" docX1).state.Insert 1 none "t1" docX2).state DB.empty
      [{ now := 0, fault := none, taskID := "t1", jsonData := docX1 },
       { now := 1, fault := none, taskID := "t1", jsonData := docX2 }] 2 "t2" rfl rfl rfl).1
      (by decide) rfl⟩

/-- Claim C3 as stated fails on the code: `Get` returns `pending` for an expired
record only when the lookup of the engine does not fail.  After a successful
`Insert` at instant 0, a `Get` issued 300 seconds later to which the engine
answers with a read failure returns that failure and not `pending`. -/
theorem C3_expired_get_fails_on_engine_failure :
    (liveHandle.Insert 0 none "t1" docX1).ret = none ∧
      ((liveHandle.Insert 0 none "t1" docX1).state.Get jsonUnmarshal (300 * Second)
        (some "read failed") "t1").ret = .error (.engine "read failed") :=
  ⟨rfl, rfl⟩

/-- Claim C3, amended.  `Insert(id, payload)` at instant `t` writes one entry whose
expiry is `t` plus exactly 300 seconds, whatever the identifier and the payload.
If the `Insert` succeeds and the calls made afterwards neither close the handle
nor insert under `id`, then every `Get(id)` issued at or after `t` plus 300 seconds,
to which the engine does not answer with a lookup failure, returns `pending`
without error. -/
theorem C3_expiry (unmarshal : Bytes → Except GoError Any) (b : Badger) (db : DB)
    (t now : Nat) (fault : Option String) (id : String) (payload : Bytes) (calls : List Call)
    (hdb : b.db = some db)
    (hins : (b.Insert t fault id payload).ret = none)
    (hcalls : ∀ c ∈ calls, c.leaves id = true)
    (hlate : t + 300 * Second ≤ now) :
    (b.Insert t fault id payload).state.db =
        some { entries :=
          { Key := id, Value := payload, ExpiresAt := t + 300 * Second } :: db.entries } ∧
      (b.Insert t fault id payload).effects.head? =
        some (.engineUpdate id payload (300 * Second)) ∧
      ((Badger.run unmarshal (b.Insert t fault id payload).state calls).Get unmarshal now none
        id).ret = .ok pending := by
  obtain ⟨hopen, _, hsize, hfault⟩ := insert_ok_inv b t fault id payload hins
  subst hfault
  have hacc := insert_accepted b db t id payload hopen hdb hsize
  refine ⟨by rw [hacc]; rfl, by rw [hacc]; rfl, ?_⟩
  have hinv := run_leaves unmarshal id (insertedEntry t id payload) calls
    (b.Insert t none id payload).state (by rw [hacc]; exact hopen)
    ⟨{ entries := insertedEntry t id payload :: db.entries }, by rw [hacc],
      newest_cons_same db (insertedEntry t id payload)⟩ hcalls
  obtain ⟨hopen2, db2, hdb2, hnew2⟩ := hinv
  rw [get_ret unmarshal _ db2 now none id hopen2 hdb2, hnew2]
  simp only [getResult, entry_expired t id payload now hlate, if_true]

/-- Witness of claim C3: a record written at instant 0, another identifier
written later, and a `Get` at 300 seconds. -/
theorem C3_witness :
    ((Badger.run jsonUnmarshal (liveHandle.Insert 0 none "t1" docX1).state
        [.Insert (10 * Second) none "t2" docX2, .Get (20 * Second) none "t1"]).Get jsonUnmarshal
        (300 * Second) none "t1").ret = .ok pending :=
  (C3_expiry jsonUnmarshal liveHandle DB.empty 0 (300 * Second) none "t1" docX1
    [.Insert (10 * Second) none "t2" docX2, .Get (20 * Second) none "t1"] rfl rfl
    (by decide) (by decide)).2.2

/-- Claim C4.  On a handle that is not open, that is one whose closed flag is set
(it has been closed) or which holds no engine (it was never opened, or `Open`
failed), `Insert` and `Get` return the closed error for every identifier and every
payload, whatever its size; the handle is unchanged and the call has no effect at
all: no engine read or write, no notification task, no report. -/
theorem C4_not_open_fails_without_effects (unmarshal : Bytes → Except GoError Any)
    (b : Badger) (now : Nat) (fault : Option String) (id : String) (payload : Bytes)
    (h : b.closed = true ∨ b.db = none) :
    b.Insert now fault id payload = { ret := some closedError, state := b, effects := [] } ∧
      b.Get unmarshal now fault id =
        { ret := .error closedError, state := b, effects := [] } :=
  ⟨insert_of_not_open b now fault id payload h, get_of_not_open unmarshal b now fault id h⟩

/-- Witness of claim C4: a closed handle and a payload above 10 MiB. -/
theorem C4_witness :
    (liveHandle.Close none).state.Insert 0 none "t1" oversized =
        { ret := some closedError, state := (liveHandle.Close none).state, effects := [] } ∧
      (liveHandle.Close none).state.Get jsonUnmarshal 0 none "t1" =
        { ret := .error closedError, state := (liveHandle.Close none).state, effects := [] } :=
  C4_not_open_fails_without_effects jsonUnmarshal (liveHandle.Close none).state 0 none "t1"
    oversized (Or.inl rfl)

/-- Claim C5.  On an open handle, `Insert` of a payload longer than 10 MiB returns
the payload-too-large error, leaves the handle and its records unchanged and has no
effect (no engine write, no notification task); a `Get` of the identifier made
after the failed `Insert` returns what the same `Get` returns before it. -/
theorem C5_oversized_payload_rejected (unmarshal : Bytes → Except GoError Any) (b : Badger)
    (db : DB) (now : Nat) (fault : Option String) (id : String) (payload : Bytes)
    (now2 : Nat) (fault2 : Option String)
    (hopen : b.closed = false) (hdb : b.db = some db)
    (hbig : 10 * 1024 * 1024 < payload.length) :
    b.Insert now fault id payload =
        { ret := some (payloadTooLargeError payload.length), state := b, effects := [] } ∧
      ((b.Insert now fault id payload).state.Get unmarshal now2 fault2 id).ret =
        (b.Get unmarshal now2 fault2 id).ret := by
  have h := insert_too_large b db now fault id payload hopen hdb hbig
  exact ⟨h, by rw [h]⟩

/-- Witness of claim C5: a payload of 10 MiB and one byte, on a handle that holds
a record for the identifier. -/
theorem C5_witness :
    (liveHandle.Insert 0 none "t1" docX1).state.Insert 1 none "t1" oversized =
        { ret := some (payloadTooLargeError oversized.length)
          state := (liveHandle.Insert 0 none "t1" docX1).state, effects := [] } ∧
      (((liveHandle.Insert 0 none "t1" docX1).state.Insert 1 none "t1" oversized).state.Get
          jsonUnmarshal 2 none "t1").ret =
        ((liveHandle.Insert 0 none "t1" docX1).state.Get jsonUnmarshal 2 none "t1").ret :=
  C5_oversized_payload_rejected jsonUnmarshal (liveHandle.Insert 0 none "t1" docX1).state
    { entries := [insertedEntry 0 "t1" docX1] } 1 none "t1" oversized 2 none rfl rfl
    (by rw [oversized, List.length_replicate]; exact Nat.lt_succ_self _)

/-- Claim C6.  After `Close` has run on a handle that holds an engine, and after
any further sequence of `Open`, `Insert`, `Get` and `Close` calls, with whatever
the engine answers to them, every `Insert` and every `Get` returns the closed
error: the closed flag is never reset, also not by a later `Open`. -/
theorem C6_close_is_terminal (unmarshal : Bytes → Except GoError Any) (b : Badger) (db : DB)
    (closeFault : Option String) (calls : List Call) (now : Nat) (fault : Option String)
    (id : String) (payload : Bytes) (hlive : b.db = some db) :
    ((Badger.run unmarshal (b.Close closeFault).state calls).Insert now fault id payload).ret =
        some closedError ∧
      ((Badger.run unmarshal (b.Close closeFault).state calls).Get unmarshal now fault id).ret =
        .error closedError := by
  have h0 : (b.Close closeFault).state.closed = true := by
    rw [(close_of_engine b db closeFault hlive).1]
  have h := run_closed unmarshal calls _ h0
  rw [insert_of_not_open _ now fault id payload (Or.inl h),
    get_of_not_open unmarshal _ now fault id (Or.inl h)]
  exact ⟨rfl, rfl⟩

/-- Witness of claim C6: the handle is closed, opened again on an engine, and
then used. -/
theorem C6_witness :
    ((Badger.run jsonUnmarshal (liveHandle.Close none).state
        [.Open (.ok DB.empty) 2, .Insert 5 none "t1" docX1]).Insert 6 none "t1" docX1).ret =
        some closedError ∧
      ((Badger.run jsonUnmarshal (liveHandle.Close none).state
        [.Open (.ok DB.empty) 2, .Insert 5 none "t1" docX1]).Get jsonUnmarshal 6 none "t1").ret =
        .error closedError :=
  C6_close_is_terminal jsonUnmarshal liveHandle DB.empty none
    [.Open (.ok DB.empty) 2, .Insert 5 none "t1" docX1] 6 none "t1" docX1 rfl

/-- Claim C7.  The value returned by `Insert` and the records it leaves in the
engine do not depend on the `AfterInsert` callback installed on the handle (none,
one that returns, one that panics on every call).  The goroutine that runs the
callback always ends by returning: a panic of the callback is recovered inside
it.  When the engine accepts the write, `Insert` returns success and only starts
the goroutine: the callback is not run by `Insert` itself. -/
theorem C7_notifier_fault_isolation (b : Badger) (cb : Option Callback) (now : Nat)
    (fault : Option String) (id : String) (payload : Bytes) :
    (({ b with AfterInsert := cb } : Badger).Insert now fault id payload).ret =
        (({ b with AfterInsert := none } : Badger).Insert now fault id payload).ret ∧
      (({ b with AfterInsert := cb } : Badger).Insert now fault id payload).state.db =
        (({ b with AfterInsert := none } : Badger).Insert now fault id payload).state.db ∧
      (∀ (f : Option Callback) (i : String) (d : Bytes),
        (afterInsertGoroutine f i d).1 = GoroutineExit.returned) ∧
      (∀ (f : Callback) (db : DB), b.closed = false → b.db = some db →
        payload.length ≤ 10 * 1024 * 1024 →
        (({ b with AfterInsert := some f } : Badger).Insert now none id payload).ret = none ∧
        (({ b with AfterInsert := some f } : Badger).Insert now none id payload).effects =
          [.engineUpdate id payload (300 * Second), .goAfterInsert id payload]) := by
  refine ⟨(insert_callback_indep b cb now fault id payload).1,
    (insert_callback_indep b cb now fault id payload).2, ?_, ?_⟩
  · intro f i d
    unfold afterInsertGoroutine runDeferred
    split
    · rfl
    · rfl
    · rename_i h
      cases h
  · intro f db hopen hdb hsize
    rw [insert_accepted ({ b with AfterInsert := some f } : Badger) db now id payload hopen hdb
      hsize]
    exact ⟨rfl, rfl⟩

/-- Witness of claim C7: a callback that panics on every invocation. -/
theorem C7_witness :
    (({ liveHandle with AfterInsert := some faultyCallback } : Badger).Insert 0 none "t1"
        docX1).ret = none ∧
      (afterInsertGoroutine (some faultyCallback) "t1" docX1).1 = GoroutineExit.returned :=
  ⟨((C7_notifier_fault_isolation liveHandle none 0 none "t1" docX1).2.2.2 faultyCallback
      DB.empty rfl rfl (by decide)).1,
    (C7_notifier_fault_isolation liveHandle none 0 none "t1" docX1).2.2.1
      (some faultyCallback) "t1" docX1⟩

/-- Claim C8.  On a handle that holds an engine (an earlier `Open` succeeded and
`Close` has not run), `Open` returns success, leaves the handle unchanged (engine
reference, closed flag, cancellation control) and has no effect: the engine is not
opened again and no worker is started.  Two calls of `Open` in a row on a handle
without engine start exactly one worker. -/
theorem C8_open_idempotent (b : Badger) (db : DB) (r : Except GoError DB) (ctx : Nat)
    (hdb : b.db = some db) :
    b.Open r ctx = { ret := none, state := b, effects := [] } ∧
      (∀ (b0 : Badger) (ctx0 : Nat), b0.db = none →
        (b0.Open (.ok db) ctx0).ret = none ∧
        ((b0.Open (.ok db) ctx0).state.Open r ctx).ret = none ∧
        ((b0.Open (.ok db) ctx0).effects ++
          ((b0.Open (.ok db) ctx0).state.Open r ctx).effects).countP Effect.isGoWorker = 1) := by
  refine ⟨open_of_open b db r ctx hdb, ?_⟩
  intro b0 ctx0 h0
  have h1 : b0.Open (.ok db) ctx0 =
      { ret := none
        state := { b0 with db := some db, cancelGC := some ctx0 }
        effects := [.engineOpen (openOptions b0.Path), .goWorker ctx0,
          .logInfo "BadgerDB opened with optimized settings"] } := by
    unfold Badger.Open
    rw [h0]
  rw [h1]
  dsimp only
  rw [open_of_open _ db r ctx rfl]
  exact ⟨rfl, rfl, rfl⟩

/-- Witness of claim C8: `Open` twice in a row on a fresh handle. -/
theorem C8_witness :
    liveHandle.Open (.ok DB.empty) 2 = { ret := none, state := liveHandle, effects := [] } ∧
      (((Badger.new "/var/lib/inject" none none).Open (.ok DB.empty) 1).effects ++
        (((Badger.new "/var/lib/inject" none none).Open (.ok DB.empty) 1).state.Open
          (.ok DB.empty) 2).effects).countP Effect.isGoWorker = 1 :=
  ⟨(C8_open_idempotent liveHandle DB.empty (.ok DB.empty) 2 rfl).1,
    ((C8_open_idempotent liveHandle DB.empty (.ok DB.empty) 2 rfl).2
      (Badger.new "/var/lib/inject" none none) 1 rfl).2.2⟩

/-- Claim C9.  `Close` on a handle without engine (never opened) returns success,
changes nothing and has no effect.  A second `Close` directly after a first one
returns success, changes nothing and has no effect (no engine close, no
cancellation), whatever the engine answered to the first: the first `Close` on a
handle with an engine sets the closed flag and drops the engine reference, and
returns the close error of the engine if there is one. -/
theorem C9_close_idempotent (b : Badger) (f1 f2 : Option String) :
    (b.db = none → b.Close f1 = { ret := none, state := b, effects := [] }) ∧
      (b.Close f1).state.Close f2 =
        { ret := none, state := (b.Close f1).state, effects := [] } ∧
      (∀ db : DB, b.db = some db →
        (b.Close f1).state.closed = true ∧ (b.Close f1).state.db = none ∧
        (b.Close f1).ret = f1.map GoError.engine) := by
  refine ⟨close_of_no_engine b f1, close_of_no_engine _ f2 (close_db b f1), ?_⟩
  intro db hdb
  have h := close_of_engine b db f1 hdb
  rw [h.1, h.2]
  exact ⟨rfl, rfl, rfl⟩

/-- Witness of claim C9: a first `Close` to which the engine answers with a
failure, then a second `Close`. -/
theorem C9_witness :
    (Badger.new "/var/lib/inject" none none).Close none =
        { ret := none, state := Badger.new "/var/lib/inject" none none, effects := [] } ∧
      (liveHandle.Close (some "sync failed")).ret = some (.engine "sync failed") ∧
      (liveHandle.Close (some "sync failed")).state.Close none =
        { ret := none, state := (liveHandle.Close (some "sync failed")).state, effects := [] } :=
  ⟨(C9_close_idempotent (Badger.new "/var/lib/inject" none none) none none).1 rfl,
    ((C9_close_idempotent liveHandle (some "sync failed") none).2.2 DB.empty rfl).2.2,
    (C9_close_idempotent liveHandle (some "sync failed") none).2.1⟩

/-- Claim C10 fails on the code.  The worker releases the shared lock before it
calls the engine.  In the schedule tick, check (the handle is seen open), a whole
call of `Close`, reclaim, the reclaim starts after `Close` has returned, on a
handle whose engine reference is nil, and the worker goroutine panics. -/
theorem C10_reclaim_after_close :
    ((Sys.opened (Badger.new "/var/lib/inject" none none) DB.empty 1).run
      [.workerTick, .workerCheck, .close none, .workerReclaim .done]).map
      (fun s => (s.trace, s.pc, s.handle.db.isNone, reclaimAfterClose s.trace)) =
    some ([.effect (.cancel 1), .effect .engineClose,
        .effect (.logInfo "BadgerDB closed successfully"), .closeReturned none,
        .effect (.engineGC false)],
      WorkerPC.crashed, true, true) := by
  rfl

end storage
